import Mathlib

/-
Verification development for the FinanceGuard ledger core (app.py).

The app is a form-driven UI over MongoDB. We shallowly embed the ledger
core: transaction records and wallets are structures, the Mongo
collections are Lean lists, and each helper of app.py becomes a Lean
function translated from its Python body. Monetary amounts (Python
floats holding whole-currency values) are modelled as `Int`; timestamps
as `Nat` (seconds since the epoch), with the calendar date of a
timestamp being its day number `ts / 86400`, mirroring `.dt.date`.
-/

namespace FinanceGuard

/-- A wallet document from the `wallet_sources` collection, keyed by
`str(_id)` as in `load_wallets`. (`created_at` is not read by any
computation modelled here and is omitted.) -/
structure Wallet where
  id : String
  name : String
deriving DecidableEq, Repr

/-- A transaction row after `load_transactions_df` normalisation:
`_id` stringified (`tid` here), the eight columns present, `amount`
numeric. `source_id`/`target_id` are `Option String` (MongoDB fields
may be null/absent); the dashboard compares `df["source_id"].astype(str)`
with a wallet id, which a null field (stringified to the text "None")
never equals because ObjectId strings are hex. -/
structure Tx where
  tid : String
  type : String
  source_id : Option String
  target_id : Option String
  amount : Int
  description : String
  created_at : Nat
deriving DecidableEq, Repr

/-- Mask `df["source_id"].astype(str) == wid` (dashboard line 107). -/
def outMask (wid : String) (t : Tx) : Bool :=
  t.source_id == some wid

/-- Mask `df["target_id"].astype(str) == wid` (dashboard line 108). -/
def inMask (wid : String) (t : Tx) : Bool :=
  t.target_id == some wid

/-- Mask `df["type"] == ty`. -/
def typeIs (ty : String) (t : Tx) : Bool :=
  t.type == ty

/-- `df.loc[mask, "amount"].sum()`: the sum of amounts of the rows
satisfying a mask. -/
def maskedSum (df : List Tx) (p : Tx → Bool) : Int :=
  ((df.filter p).map Tx.amount).sum

/-- Per-wallet balance, dashboard lines 110-115:
`income`, `expense`, `t_in`, `t_out` are the four masked sums and
`bal = (income + t_in) - (expense + t_out)`. -/
def balance (df : List Tx) (wid : String) : Int :=
  let income := maskedSum df (fun t => outMask wid t && typeIs "income" t)
  let expense := maskedSum df (fun t => outMask wid t && typeIs "expense" t)
  let t_in := maskedSum df (fun t => inMask wid t && typeIs "transfer_in" t)
  let t_out := maskedSum df (fun t => outMask wid t && typeIs "transfer_out" t)
  (income + t_in) - (expense + t_out)

/-- Dashboard line 119: `total_all = summary_df["saldo"].sum()`, the sum
of the per-wallet balances over the wallet map. -/
def total_balance (wallets : List Wallet) (df : List Tx) : Int :=
  (wallets.map (fun w => balance df w.id)).sum

/-- Number of occurrences of an optional wallet id among a list of ids,
as an integer; a null id occurs zero times. -/
def countIn (ids : List String) : Option String → Int
  | none => 0
  | some s => (ids.count s : Int)

/-- The net contribution of one transaction row to the sum of the
balances of the wallets whose ids are listed in `ids`. -/
def contrib (ids : List String) (t : Tx) : Int :=
  (if t.type = "income" then t.amount * countIn ids t.source_id else 0)
  + (if t.type = "transfer_in" then t.amount * countIn ids t.target_id else 0)
  - (if t.type = "expense" then t.amount * countIn ids t.source_id else 0)
  - (if t.type = "transfer_out" then t.amount * countIn ids t.source_id else 0)

/-- The two documents inserted by the transfer branch of the Transaksi
form (app.py lines 243-258): a `transfer_out` then a `transfer_in`,
both carrying `source_id = w_from` and `target_id = w_to` and sharing
amount, description and date. `i1`, `i2` stand for the ObjectIds the
store assigns on insert. -/
def transferRecords (w_from w_to : String) (amount : Int) (desc : String)
    (created : Nat) (i1 i2 : String) : List Tx :=
  [ ⟨i1, "transfer_out", some w_from, some w_to, amount, desc, created⟩,
    ⟨i2, "transfer_in", some w_from, some w_to, amount, desc, created⟩ ]

/-- Form-level failures of the Transaksi submit handler, by the
`st.error` message shown: `invalidAmount` is line 215 ("Nominal harus
lebih besar dari 0"), `sameWallet` is line 240 ("Dompet asal dan tujuan
tidak boleh sama"). -/
inductive TrxFormError
  | invalidAmount
  | sameWallet
deriving DecidableEq, Repr

/-- The transfer path of the Transaksi submit handler (app.py lines
213-258): first the `amount <= 0` guard (line 214), then the
same-wallet guard (line 239); each `st.error` + `st.stop()` aborts the
run before any insert, so on failure the store is returned unchanged;
otherwise the two transfer records are inserted. -/
def submitTransfer (store : List Tx) (w_from w_to : String) (amount : Int)
    (desc : String) (created : Nat) (i1 i2 : String) :
    Option TrxFormError × List Tx :=
  if amount ≤ 0 then (some .invalidAmount, store)
  else if w_from = w_to then (some .sameWallet, store)
  else (none, store ++ transferRecords w_from w_to amount desc created i1 i2)

/-- Wallet-registry failures of `upsert_wallet`, by message:
`emptyName` is "Nama dompet kosong", `duplicateName` is "Nama dompet
sudah ada". -/
inductive WalletError
  | emptyName
  | duplicateName
deriving DecidableEq, Repr

/-- Drop leading whitespace characters from a character list. -/
def dropWhileWS : List Char → List Char
  | [] => []
  | c :: cs => if c.isWhitespace then dropWhileWS cs else c :: cs

/-- Python `str.strip()`: remove leading and trailing whitespace.
Implemented by structural recursion on the character list. -/
def strip (s : String) : String :=
  String.mk ((dropWhileWS ((dropWhileWS s.data).reverse)).reverse)

/-- `upsert_wallet` (app.py lines 64-71): rejects a blank/whitespace
name; rejects when `find_one({"name": name.strip()})` hits an existing
wallet; otherwise inserts `{"name": name.strip()}` (`freshId` stands
for the ObjectId the store assigns; the stored `created_at` is not
read anywhere modelled here and is dropped). Returns the outcome
alongside the resulting registry. -/
def upsert_wallet (registry : List Wallet) (name : String)
    (freshId : String) : Option WalletError × List Wallet :=
  if strip name = "" then (some .emptyName, registry)
  else if registry.any (fun w => w.name == strip name) then
    (some .duplicateName, registry)
  else (none, registry ++ [⟨freshId, strip name⟩])

/-- A `$set` patch as built by the edit form (app.py lines 341-350):
always sets amount, description, type, source_id and target_id. -/
structure Patch where
  amount : Int
  description : String
  type : String
  source_id : Option String
  target_id : Option String
deriving DecidableEq, Repr

/-- Apply a `$set` patch to one document. -/
def applyPatch (p : Patch) (t : Tx) : Tx :=
  { t with
    amount := p.amount,
    description := p.description,
    type := p.type,
    source_id := p.source_id,
    target_id := p.target_id }

/-- Ledger-store failure taxonomy relevant to `update_transaction`. -/
inductive LedgerError
  | notFound
deriving DecidableEq, Repr

/-- `update_transaction` (app.py lines 78-79):
`trx_col.update_one({"_id": ObjectId(trx_id)}, {"$set": patch})`.
MongoDB's `update_one` patches the first (for `_id`, the unique)
matching document and does not raise when nothing matches — it reports
`matched_count == 0` and leaves the collection unchanged — so this
translation always returns `.ok`. -/
def update_transaction (store : List Tx) (trx_id : String) (patch : Patch) :
    Except LedgerError (List Tx) :=
  .ok (updateFirst store trx_id patch)
where
  updateFirst : List Tx → String → Patch → List Tx
    | [], _, _ => []
    | t :: ts, i, p =>
        if t.tid = i then applyPatch p t :: ts
        else t :: updateFirst ts i p

/-- `delete_transaction` (app.py lines 81-82): `delete_one` removes the
document with the given id when present and is a no-op otherwise. -/
def delete_transaction (store : List Tx) (trx_id : String) : List Tx :=
  match store with
  | [] => []
  | t :: ts =>
      if t.tid = trx_id then ts else t :: delete_transaction ts trx_id

/-- Does transaction `t` reference wallet `wid` as source or target? -/
def references (wid : String) (t : Tx) : Bool :=
  t.source_id == some wid || t.target_id == some wid

/-- Failure of wallet removal under the strict policy. -/
inductive RemoveError
  | referenced
deriving DecidableEq, Repr

/-- Modelled from the spec: app.py has no wallet-removal code, so the
Wallet Registry `remove(id)` operation is taken from §4.1 under the
mandated strict policy — it fails with `ReferencedError` when any
transaction references the id as source or target (leaving the
registry unchanged) and otherwise deletes the wallet. -/
def remove_wallet (registry : List Wallet) (store : List Tx)
    (wid : String) : Option RemoveError × List Wallet :=
  if store.any (references wid) then (some .referenced, registry)
  else (none, registry.filter (fun w => w.id != wid))

/-- Insert a row into a list kept sorted by `created_at` descending;
used to model `trx_col.find().sort("created_at", -1)`. -/
def insertByCreatedDesc (t : Tx) : List Tx → List Tx
  | [] => [t]
  | x :: xs =>
      if x.created_at ≤ t.created_at then t :: x :: xs
      else x :: insertByCreatedDesc t xs

/-- Sort the collection by `created_at` descending (most recent first). -/
def sortByCreatedDesc (store : List Tx) : List Tx :=
  store.foldr insertByCreatedDesc []

/-- `load_transactions_df()` as called everywhere in app.py (line 40,
default `limit=None`): `find().sort("created_at", -1).limit(10000)` —
the at most 10000 most recent rows, most recent first. The dataframe
normalisation of already well-formed rows is the identity; malformed
amounts are treated in `normalizeTx` below. -/
def load_transactions_df (store : List Tx) : List Tx :=
  (sortByCreatedDesc store).take 10000

/-- Calendar date of a timestamp (`.dt.date`): its day number. -/
def dateOnly (t : Tx) : Nat :=
  t.created_at / 86400

/-- Insert a date key into an ascending duplicate-free key list; used
to model the sorted group keys of pandas `groupby`. -/
def insertKey (d : Nat) : List Nat → List Nat
  | [] => [d]
  | x :: xs =>
      if d < x then d :: x :: xs
      else if d = x then x :: xs
      else x :: insertKey d xs

/-- The sorted distinct keys of a key list. -/
def sortedKeys (ds : List Nat) : List Nat :=
  ds.foldr insertKey []

/-- `df.groupby("date_only", as_index=False)["amount"].sum()` (app.py
lines 139-140 and 398-399): one row per distinct calendar date present,
keys ascending, each paired with the summed amount of its rows. -/
def groupSumByDay (txs : List Tx) : List (Nat × Int) :=
  (sortedKeys (txs.map dateOnly)).map
    (fun d => (d, maskedSum txs (fun t => dateOnly t == d)))

/-- A stored `amount` field before normalisation: a number, or a
non-numeric value that `pd.to_numeric(..., errors="coerce")` turns
into NaN. A missing field is `none` at the `Option RawVal` use site. -/
inductive RawVal
  | numeric (q : Int)
  | nonNumeric (s : String)
deriving DecidableEq, Repr

/-- A raw stored transaction document: like `Tx` but with an
unnormalised `amount` field that may be missing or non-numeric. -/
structure RawTx where
  tid : String
  type : String
  source_id : Option String
  target_id : Option String
  amount : Option RawVal
  description : String
  created_at : Nat
deriving DecidableEq, Repr

/-- Amount normalisation, app.py line 61:
`pd.to_numeric(df["amount"].fillna(0), errors="coerce").fillna(0)` —
a missing amount becomes 0, a number stays itself, and a non-numeric
value is coerced to NaN and then filled with 0. Total: no input makes
loading fail. -/
def coerceAmount : Option RawVal → Int
  | none => 0
  | some (.numeric q) => q
  | some (.nonNumeric _) => 0

/-- Row normalisation performed by `load_transactions_df`. -/
def normalizeTx (r : RawTx) : Tx :=
  ⟨r.tid, r.type, r.source_id, r.target_id, coerceAmount r.amount,
    r.description, r.created_at⟩

/-- Is the stored amount malformed (missing or non-numeric)? -/
def malformedAmount : Option RawVal → Bool
  | none => true
  | some (.numeric _) => false
  | some (.nonNumeric _) => true

/-- Per-wallet saldo as rendered by the Dashboard tab (lines 97 and
104-116): the balance over the loaded dataframe. -/
def dashboard_balance (store : List Tx) (wid : String) : Int :=
  balance (load_transactions_df store) wid

/-- `total_all` as rendered by the Dashboard tab (line 119). -/
def dashboard_total (wallets : List Wallet) (store : List Tx) : Int :=
  total_balance wallets (load_transactions_df store)

/-- The daily expense trend of the Dashboard tab (lines 137-140):
expenses of the loaded dataframe grouped by calendar date. -/
def daily_expense_trend (store : List Tx) : List (Nat × Int) :=
  groupSumByDay ((load_transactions_df store).filter (typeIs "expense"))

/-- Parameters of one Transfer-Coordinator transfer: endpoints, amount,
description, date, and the two ObjectIds the store assigns. -/
structure PairSpec where
  A : String
  B : String
  x : Int
  desc : String
  created : Nat
  i1 : String
  i2 : String
deriving DecidableEq, Repr

/-- The ledger fragment consisting of the listed transfer pairs, each
exactly as the Transfer Coordinator inserts it. -/
def pairsLedger (ps : List PairSpec) : List Tx :=
  (ps.map (fun p =>
    transferRecords p.A p.B p.x p.desc p.created p.i1 p.i2)).flatten

/- Algebra of masked sums and balances. -/

theorem maskedSum_nil (p : Tx → Bool) : maskedSum [] p = 0 := rfl

theorem maskedSum_cons (t : Tx) (df : List Tx) (p : Tx → Bool) :
    maskedSum (t :: df) p =
      (if p t then t.amount else 0) + maskedSum df p := by
  by_cases h : p t <;> simp [maskedSum, List.filter_cons, h]

theorem maskedSum_append (l₁ l₂ : List Tx) (p : Tx → Bool) :
    maskedSum (l₁ ++ l₂) p = maskedSum l₁ p + maskedSum l₂ p := by
  simp [maskedSum, List.filter_append]

theorem maskedSum_perm {l₁ l₂ : List Tx} (h : l₁.Perm l₂) (p : Tx → Bool) :
    maskedSum l₁ p = maskedSum l₂ p :=
  ((h.filter p).map Tx.amount).sum_eq

theorem balance_nil (wid : String) : balance [] wid = 0 := rfl

theorem balance_append (l₁ l₂ : List Tx) (wid : String) :
    balance (l₁ ++ l₂) wid = balance l₁ wid + balance l₂ wid := by
  simp only [balance, maskedSum_append]
  ring

theorem balance_perm {l₁ l₂ : List Tx} (h : l₁.Perm l₂) (wid : String) :
    balance l₁ wid = balance l₂ wid := by
  simp only [balance, maskedSum_perm h]

theorem total_balance_append (wallets : List Wallet) (l₁ l₂ : List Tx) :
    total_balance wallets (l₁ ++ l₂) =
      total_balance wallets l₁ + total_balance wallets l₂ := by
  induction wallets with
  | nil => rfl
  | cons w ws ih =>
      simp [total_balance, balance_append] at ih ⊢
      omega

theorem total_balance_perm (wallets : List Wallet) {l₁ l₂ : List Tx}
    (h : l₁.Perm l₂) :
    total_balance wallets l₁ = total_balance wallets l₂ := by
  simp only [total_balance, balance_perm h]

/-- Closed form of the balance of a single transaction row. -/
theorem balance_single (t : Tx) (wid : String) :
    balance [t] wid =
      (if t.source_id = some wid ∧ t.type = "income" then t.amount else 0)
      + (if t.target_id = some wid ∧ t.type = "transfer_in" then t.amount else 0)
      - (if t.source_id = some wid ∧ t.type = "expense" then t.amount else 0)
      - (if t.source_id = some wid ∧ t.type = "transfer_out" then t.amount else 0) := by
  simp only [balance, maskedSum_cons, maskedSum_nil, outMask, inMask, typeIs,
    Bool.and_eq_true, beq_iff_eq, decide_eq_true_eq, add_zero]
  ring

theorem balance_cons (t : Tx) (df : List Tx) (wid : String) :
    balance (t :: df) wid = balance [t] wid + balance df wid := by
  have h : (t :: df) = [t] ++ df := rfl
  rw [h, balance_append]

theorem countIn_cons (i : String) (rest : List String) (o : Option String) :
    countIn (i :: rest) o = countIn rest o + (if o = some i then 1 else 0) := by
  cases o with
  | none => simp [countIn]
  | some s =>
      by_cases h : s = i
      · subst h
        simp [countIn, List.count_cons_self]
      · simp [countIn, List.count_cons_of_ne h, h]

theorem ite_mul_count_split (P Q : Prop) [Decidable P] [Decidable Q]
    (x c : Int) :
    (if P then x * (c + if Q then 1 else 0) else 0) =
      (if P then x * c else 0) + (if Q ∧ P then x else 0) := by
  by_cases hP : P <;> by_cases hQ : Q <;> simp [hP, hQ, mul_add]

theorem contrib_nil (t : Tx) : contrib [] t = 0 := by
  cases hs : t.source_id <;> cases ht : t.target_id <;>
    simp [contrib, countIn, hs, ht]

theorem contrib_cons (i : String) (rest : List String) (t : Tx) :
    contrib (i :: rest) t = balance [t] i + contrib rest t := by
  rw [balance_single]
  simp only [contrib, countIn_cons, ite_mul_count_split]
  ring

theorem sum_balance_single (t : Tx) (ids : List String) :
    (ids.map (fun i => balance [t] i)).sum = contrib ids t := by
  induction ids with
  | nil => simp [contrib_nil]
  | cons i rest ih =>
      rw [List.map_cons, List.sum_cons, ih, contrib_cons]

theorem sum_map_add {α : Type} (l : List α) (f g : α → Int) :
    (l.map (fun a => f a + g a)).sum = (l.map f).sum + (l.map g).sum := by
  induction l with
  | nil => rfl
  | cons a l ih => simp only [List.map_cons, List.sum_cons, ih]; ring

/-- The total balance is the sum, over the transaction rows, of each
row's net contribution to the listed wallets. -/
theorem total_balance_eq_sum_contrib (wallets : List Wallet) (df : List Tx) :
    total_balance wallets df =
      (df.map (contrib (wallets.map Wallet.id))).sum := by
  induction df with
  | nil => simp [total_balance, balance_nil]
  | cons t rest ih =>
      have hstep : total_balance wallets (t :: rest) =
          (wallets.map (fun w => balance [t] w.id)).sum +
            total_balance wallets rest := by
        simp only [total_balance]
        rw [← sum_map_add]
        exact congrArg List.sum
          (List.map_congr_left (fun w _ => balance_cons t rest w.id))
      have hsingle : (wallets.map (fun w => balance [t] w.id)).sum =
          contrib (wallets.map Wallet.id) t := by
        rw [← sum_balance_single t (wallets.map Wallet.id), List.map_map]
        rfl
      rw [hstep, hsingle, ih, List.map_cons, List.sum_cons]

/-- C4 counterexample: a transfer request whose source equals its target
is not rejected with `SameWalletError` for every amount — at amount 0
the `amount <= 0` guard (line 214) fires first, so the failure is the
invalid-amount error, not the same-wallet error. The store still
receives zero writes. -/
theorem c4_same_wallet_counterexample :
    submitTransfer [] "A" "A" 0 "" 0 "i1" "i2" =
      (some TrxFormError.invalidAmount, [])
    ∧ TrxFormError.invalidAmount ≠ TrxFormError.sameWallet := by
  exact ⟨rfl, by decide⟩

/-- C4 (amended): for every transfer request whose source wallet equals
its target wallet and every positive amount, the request fails with the
same-wallet error and the transaction store is unchanged (zero ledger
writes); a non-positive amount is instead rejected by the earlier
amount guard, also with zero writes. -/
theorem c4_same_wallet_rejected (store : List Tx) (w : String) (amount : Int)
    (desc : String) (created : Nat) (i1 i2 : String) (hpos : 0 < amount) :
    submitTransfer store w w amount desc created i1 i2 =
      (some TrxFormError.sameWallet, store) := by
  have hna : ¬ amount ≤ 0 := by omega
  simp [submitTransfer, hna]

/-- C4 witness: the amended theorem at a concrete request. -/
theorem c4_same_wallet_rejected_witness :
    (0 : Int) < 5 ∧
      submitTransfer [] "A" "A" 5 "" 0 "i1" "i2" =
        (some TrxFormError.sameWallet, []) :=
  ⟨by decide, c4_same_wallet_rejected [] "A" 5 "" 0 "i1" "i2" (by decide)⟩

/-- C5 counterexample: adding a name equal (exact, case-sensitive) to
an existing wallet's name does not always fail — `upsert_wallet`
compares the stripped input against stored names, so with a stored
name " X" (leading blank) the request " X" passes the duplicate check
and inserts a wallet named "X", changing the registry. -/
theorem c5_duplicate_name_counterexample :
    upsert_wallet [⟨"w1", " X"⟩] " X" "w2" =
      (none, [⟨"w1", " X"⟩, ⟨"w2", "X"⟩]) := by
  decide

/-- C5 (amended): for every registry state and every name whose
whitespace-stripped form is non-blank and equals an existing wallet's
stored name, add fails with the duplicate-name error and the registry
is unchanged (no wallet is inserted). In particular this covers every
exact match with a stored name that carries no surrounding whitespace. -/
theorem c5_duplicate_name_rejected (registry : List Wallet)
    (name freshId : String) (hne : strip name ≠ "")
    (hdup : ∃ w ∈ registry, w.name = strip name) :
    upsert_wallet registry name freshId =
      (some WalletError.duplicateName, registry) := by
  have hany : registry.any (fun w => w.name == strip name) = true := by
    rw [List.any_eq_true]
    obtain ⟨w, hw, he⟩ := hdup
    exact ⟨w, hw, by simpa using he⟩
  simp [upsert_wallet, hne, hany]

/-- C5 witness: the amended theorem at a concrete registry. -/
theorem c5_duplicate_name_rejected_witness :
    (strip "Cash" ≠ "" ∧ ∃ w ∈ [(⟨"w1", "Cash"⟩ : Wallet)], w.name = strip "Cash")
    ∧ upsert_wallet [⟨"w1", "Cash"⟩] "Cash" "w2" =
        (some WalletError.duplicateName, [⟨"w1", "Cash"⟩]) :=
  ⟨⟨by decide, ⟨⟨"w1", "Cash"⟩, by simp, by decide⟩⟩,
    c5_duplicate_name_rejected [⟨"w1", "Cash"⟩] "Cash" "w2" (by decide)
      ⟨⟨"w1", "Cash"⟩, by simp, by decide⟩⟩

theorem updateFirst_of_not_mem (store : List Tx) (i : String) (p : Patch)
    (h : ∀ t ∈ store, t.tid ≠ i) :
    update_transaction.updateFirst store i p = store := by
  induction store with
  | nil => rfl
  | cons t ts ih =>
      have ht : t.tid ≠ i := h t (by simp)
      simp only [update_transaction.updateFirst, if_neg ht]
      exact congrArg (t :: ·) (ih (fun u hu => h u (by simp [hu])))

theorem updateFirst_found (pre : List Tx) (t : Tx) (post : List Tx)
    (i : String) (p : Patch) (hpre : ∀ u ∈ pre, u.tid ≠ i)
    (ht : t.tid = i) :
    update_transaction.updateFirst (pre ++ t :: post) i p =
      pre ++ applyPatch p t :: post := by
  induction pre with
  | nil => simp [update_transaction.updateFirst, ht]
  | cons u us ih =>
      have hu : u.tid ≠ i := hpre u (by simp)
      simp only [List.cons_append, update_transaction.updateFirst, if_neg hu]
      exact congrArg (u :: ·) (ih (fun v hv => hpre v (by simp [hv])))

/-- C7 counterexample: updating an identifier that no stored record
carries does not fail with a not-found error — `update_one` with no
match is a silent no-op, so the call completes normally (`ok`) and the
store (here one unrelated record) is unchanged, whereas the claim
requires a `NotFoundError`. -/
theorem c7_update_missing_counterexample :
    update_transaction [⟨"t1", "income", some "w1", none, 10, "", 0⟩] "t2"
        ⟨99, "x", "expense", some "w1", none⟩ =
      Except.ok [⟨"t1", "income", some "w1", none, 10, "", 0⟩] := by
  rfl

/-- C7 (amended): `update(id, patch)` applies the given fields (amount,
description, type, source_id, target_id) to the record with identifier
`id` when one exists; when no record with that identifier exists the
call completes normally and leaves the store unchanged (a no-op), not
failing with any error. -/
theorem c7_update_semantics (store : List Tx) (i : String) (p : Patch) :
    (∀ pre t post, store = pre ++ t :: post → (∀ u ∈ pre, u.tid ≠ i) →
        t.tid = i →
        update_transaction store i p = .ok (pre ++ applyPatch p t :: post))
    ∧ ((∀ t ∈ store, t.tid ≠ i) → update_transaction store i p = .ok store) := by
  constructor
  · intro pre t post hs hpre ht
    subst hs
    rw [update_transaction, updateFirst_found pre t post i p hpre ht]
  · intro h
    rw [update_transaction, updateFirst_of_not_mem store i p h]

/-- C7 witness: the amended theorem at a concrete store — the patch is
applied to the record with the requested id. -/
theorem c7_update_semantics_witness :
    update_transaction
        [⟨"t1", "income", some "w1", none, 10, "", 0⟩,
          ⟨"t2", "expense", some "w1", none, 7, "", 1⟩] "t2"
        ⟨99, "x", "expense", some "w2", none⟩ =
      Except.ok
        [⟨"t1", "income", some "w1", none, 10, "", 0⟩,
          ⟨"t2", "expense", some "w2", none, 99, "x", 1⟩] :=
  (c7_update_semantics
      [⟨"t1", "income", some "w1", none, 10, "", 0⟩,
        ⟨"t2", "expense", some "w1", none, 7, "", 1⟩] "t2"
      ⟨99, "x", "expense", some "w2", none⟩).1
    [⟨"t1", "income", some "w1", none, 10, "", 0⟩]
    ⟨"t2", "expense", some "w1", none, 7, "", 1⟩ [] rfl (by decide) rfl

/-- C6: under the strict policy, a wallet referenced as source or
target by at least one transaction cannot be removed — the request
fails with `ReferencedError` and the registry is returned unchanged
(so the wallet remains); once every transaction referencing the wallet
has been deleted, removal succeeds. -/
theorem c6_remove_referenced (registry : List Wallet) (store : List Tx)
    (W : String) (href : ∃ t ∈ store, references W t = true) :
    remove_wallet registry store W = (some RemoveError.referenced, registry)
    ∧ remove_wallet registry
        (store.filter (fun t => !(references W t))) W =
        (none, registry.filter (fun w => w.id != W)) := by
  have hany : store.any (references W) = true := by
    rw [List.any_eq_true]
    obtain ⟨t, htm, hp⟩ := href
    exact ⟨t, htm, hp⟩
  constructor
  · simp [remove_wallet, hany]
  · have hnone : ¬ ((store.filter (fun t => !(references W t))).any
        (references W) = true) := by
      rw [List.any_eq_true]
      rintro ⟨t, htm, hp⟩
      rw [List.mem_filter] at htm
      simp [hp] at htm
    simp [remove_wallet, hnone]

/-- C6 witness: the theorem at a concrete registry and store — wallet
w1 with one expense transaction. -/
theorem c6_remove_referenced_witness :
    remove_wallet [⟨"w1", "Cash"⟩]
        [⟨"t1", "expense", some "w1", none, 10, "", 0⟩] "w1" =
      (some RemoveError.referenced, [⟨"w1", "Cash"⟩])
    ∧ remove_wallet [⟨"w1", "Cash"⟩]
        ([⟨"t1", "expense", some "w1", none, 10, "", 0⟩].filter
          (fun t => !(references "w1" t))) "w1" =
        (none, [(⟨"w1", "Cash"⟩ : Wallet)].filter (fun w => w.id != "w1")) :=
  c6_remove_referenced [⟨"w1", "Cash"⟩]
    [⟨"t1", "expense", some "w1", none, 10, "", 0⟩] "w1"
    ⟨⟨"t1", "expense", some "w1", none, 10, "", 0⟩, by simp, by decide⟩

/-- C2: the balance of a wallet is the income credited to it as source
plus the transfer_in amounts credited to it as target, minus the
expense and transfer_out amounts debited from it as source; the
`source_id` of a `transfer_in` record never enters the balance
(rewriting it arbitrarily on every transfer_in row changes no balance);
and a wallet referenced by no transaction has balance 0. -/
theorem c2_balance_convention (df : List Tx) (w : String) :
    (balance df w =
      maskedSum df (fun t => outMask w t && typeIs "income" t)
      + maskedSum df (fun t => inMask w t && typeIs "transfer_in" t)
      - maskedSum df (fun t => outMask w t && typeIs "expense" t)
      - maskedSum df (fun t => outMask w t && typeIs "transfer_out" t))
    ∧ (∀ f : Tx → Option String,
        balance (df.map (fun t =>
          if t.type = "transfer_in" then { t with source_id := f t } else t)) w
          = balance df w)
    ∧ ((∀ t ∈ df, t.source_id ≠ some w ∧ t.target_id ≠ some w) →
        balance df w = 0) := by
  refine ⟨by simp only [balance]; ring, ?_, ?_⟩
  · intro f
    induction df with
    | nil => rfl
    | cons t rest ih =>
        rw [List.map_cons]
        have hhead : balance
            [if t.type = "transfer_in" then { t with source_id := f t } else t]
            w = balance [t] w := by
          by_cases h : t.type = "transfer_in"
          · rw [if_pos h, balance_single, balance_single]
            simp [h]
          · rw [if_neg h]
        rw [balance_cons _ _ w, balance_cons t rest w, hhead, ih]
  · intro h
    induction df with
    | nil => rfl
    | cons t rest ih =>
        have hs := (h t (by simp)).1
        have ht := (h t (by simp)).2
        rw [balance_cons, balance_single]
        rw [ih (fun u hu => h u (by simp [hu]))]
        simp [hs, ht]

/-- C2 witness: the no-reference conjunct at a concrete ledger — a
wallet w2 untouched by the stored income transaction has balance 0. -/
theorem c2_balance_convention_witness :
    balance [⟨"t1", "income", some "w1", none, 10, "", 0⟩] "w2" = 0 :=
  (c2_balance_convention [⟨"t1", "income", some "w1", none, 10, "", 0⟩]
      "w2").2.2 (by decide)

/-- C1: transfer neutrality — for distinct registry wallets A and B and
any amount x > 0, the transfer form inserts its transfer_out and
transfer_in pair (no failure), after which balance(A) has changed by
-x, balance(B) by +x, and the total over the (duplicate-free) wallet
registry is unchanged. -/
theorem c1_transfer_neutrality (wallets : List Wallet) (store : List Tx)
    (A B : String) (x : Int) (desc : String) (created : Nat)
    (i1 i2 : String) (hAB : A ≠ B) (hx : 0 < x)
    (hnodup : (wallets.map Wallet.id).Nodup)
    (hA : A ∈ wallets.map Wallet.id) (hB : B ∈ wallets.map Wallet.id) :
    (submitTransfer store A B x desc created i1 i2).1 = none
    ∧ balance (submitTransfer store A B x desc created i1 i2).2 A =
        balance store A - x
    ∧ balance (submitTransfer store A B x desc created i1 i2).2 B =
        balance store B + x
    ∧ total_balance wallets (submitTransfer store A B x desc created i1 i2).2 =
        total_balance wallets store := by
  have hna : ¬ x ≤ 0 := by omega
  have hres : submitTransfer store A B x desc created i1 i2 =
      (none, store ++ transferRecords A B x desc created i1 i2) := by
    simp [submitTransfer, hna, hAB]
  rw [hres]
  have hrecA : balance (transferRecords A B x desc created i1 i2) A = -x := by
    rw [transferRecords, balance_cons, balance_single, balance_single]
    simp [Ne.symm hAB]
  have hrecB : balance (transferRecords A B x desc created i1 i2) B = x := by
    rw [transferRecords, balance_cons, balance_single, balance_single]
    simp [hAB]
  refine ⟨rfl, ?_, ?_, ?_⟩
  · rw [balance_append, hrecA]
    ring
  · rw [balance_append, hrecB]
  · rw [total_balance_append]
    have hcA : countIn (wallets.map Wallet.id) (some A) = 1 := by
      simp [countIn, List.count_eq_one_of_mem hnodup hA]
    have hcB : countIn (wallets.map Wallet.id) (some B) = 1 := by
      simp [countIn, List.count_eq_one_of_mem hnodup hB]
    have hztot : total_balance wallets
        (transferRecords A B x desc created i1 i2) = 0 := by
      rw [total_balance_eq_sum_contrib, transferRecords]
      simp [contrib, hcA, hcB]
    rw [hztot]
    ring

/-- C1 witness: the theorem at a concrete registry, empty ledger and a
transfer of 5 from w1 to w2. -/
theorem c1_transfer_neutrality_witness :
    (submitTransfer [] "w1" "w2" 5 "" 0 "i1" "i2").1 = none
    ∧ balance (submitTransfer [] "w1" "w2" 5 "" 0 "i1" "i2").2 "w1" =
        balance [] "w1" - 5
    ∧ balance (submitTransfer [] "w1" "w2" 5 "" 0 "i1" "i2").2 "w2" =
        balance [] "w2" + 5
    ∧ total_balance [⟨"w1", "Cash"⟩, ⟨"w2", "Bank"⟩]
        (submitTransfer [] "w1" "w2" 5 "" 0 "i1" "i2").2 =
        total_balance [⟨"w1", "Cash"⟩, ⟨"w2", "Bank"⟩] [] :=
  c1_transfer_neutrality [⟨"w1", "Cash"⟩, ⟨"w2", "Bank"⟩] [] "w1" "w2" 5 "" 0
    "i1" "i2" (by decide) (by decide) (by decide) (by decide) (by decide)

theorem pairsLedger_cons (p : PairSpec) (ps : List PairSpec) :
    pairsLedger (p :: ps) =
      transferRecords p.A p.B p.x p.desc p.created p.i1 p.i2 ++
        pairsLedger ps := by
  simp [pairsLedger]

theorem maskedSum_pairsLedger (ps : List PairSpec) (ty : String)
    (h1 : ("transfer_out" == ty) = false)
    (h2 : ("transfer_in" == ty) = false) :
    maskedSum (pairsLedger ps) (typeIs ty) = 0 := by
  induction ps with
  | nil => rfl
  | cons p ps ih =>
      rw [pairsLedger_cons, maskedSum_append, ih, transferRecords,
        maskedSum_cons, maskedSum_cons, maskedSum_nil]
      simp [typeIs, h1, h2]

theorem total_pairsLedger (wallets : List Wallet) (ps : List PairSpec)
    (hnodup : (wallets.map Wallet.id).Nodup)
    (hps : ∀ p ∈ ps, p.A ∈ wallets.map Wallet.id ∧
      p.B ∈ wallets.map Wallet.id) :
    total_balance wallets (pairsLedger ps) = 0 := by
  induction ps with
  | nil => simp [pairsLedger, total_balance, balance_nil]
  | cons p ps ih =>
      rw [pairsLedger_cons, total_balance_append,
        ih (fun q hq => hps q (by simp [hq]))]
      have hcA : countIn (wallets.map Wallet.id) (some p.A) = 1 := by
        simp [countIn, List.count_eq_one_of_mem hnodup (hps p (by simp)).1]
      have hcB : countIn (wallets.map Wallet.id) (some p.B) = 1 := by
        simp [countIn, List.count_eq_one_of_mem hnodup (hps p (by simp)).2]
      have hz : total_balance wallets
          (transferRecords p.A p.B p.x p.desc p.created p.i1 p.i2) = 0 := by
        rw [total_balance_eq_sum_contrib, transferRecords]
        simp [contrib, hcA, hcB]
      rw [hz]
      ring

theorem total_base_eq (wallets : List Wallet) (base : List Tx)
    (hnt : ∀ t ∈ base, t.type ≠ "transfer_out" ∧ t.type ≠ "transfer_in")
    (hie : ∀ t ∈ base, t.type = "income" ∨ t.type = "expense" →
        countIn (wallets.map Wallet.id) t.source_id = 1) :
    total_balance wallets base =
      maskedSum base (typeIs "income") - maskedSum base (typeIs "expense") := by
  induction base with
  | nil => simp [total_balance, balance_nil, maskedSum_nil]
  | cons t rest ih =>
      have h1 : total_balance wallets (t :: rest) =
          contrib (wallets.map Wallet.id) t + total_balance wallets rest := by
        rw [total_balance_eq_sum_contrib, List.map_cons, List.sum_cons,
          ← total_balance_eq_sum_contrib]
      have hc : contrib (wallets.map Wallet.id) t =
          (if typeIs "income" t then t.amount else 0) -
            (if typeIs "expense" t then t.amount else 0) := by
        obtain ⟨hnt1, hnt2⟩ := hnt t (by simp)
        by_cases hi : t.type = "income"
        · simp [contrib, typeIs, hi, hie t (by simp) (Or.inl hi)]
        · by_cases he : t.type = "expense"
          · simp [contrib, typeIs, hi, he, hie t (by simp) (Or.inr he)]
          · simp [contrib, typeIs, hi, he, hnt1, hnt2]
      rw [h1, hc, maskedSum_cons, maskedSum_cons,
        ih (fun u hu => hnt u (by simp [hu]))
          (fun u hu => hie u (by simp [hu]))]
      ring

/-- C3 counterexample: a ledger with a single income of 5 whose
source_id matches no registry wallet (and no transfers at all, so the
pairing hypothesis is vacuous) has total_balance 0, while the sum of
income minus expense over the ledger is 5 — orphaned amounts vanish
from the reported total. -/
theorem c3_orphan_income_counterexample :
    total_balance [⟨"w1", "Cash"⟩]
        [⟨"t1", "income", some "ghost", none, 5, "", 0⟩] = 0
    ∧ maskedSum [⟨"t1", "income", some "ghost", none, 5, "", 0⟩]
          (typeIs "income")
        - maskedSum [⟨"t1", "income", some "ghost", none, 5, "", 0⟩]
          (typeIs "expense") = 5 := by
  decide

/-- C3 (amended): for every ledger that is a rearrangement of a base
part free of transfer records together with correctly paired
transfer_out/transfer_in halves whose endpoints are registry wallets,
and in which every income and every expense also references an
existing registry wallet as its source, the total balance over the
(duplicate-free) registry equals the sum of all income amounts minus
the sum of all expense amounts. -/
theorem c3_total_conservation (wallets : List Wallet) (df base : List Tx)
    (ps : List PairSpec)
    (hnodup : (wallets.map Wallet.id).Nodup)
    (hnt : ∀ t ∈ base, t.type ≠ "transfer_out" ∧ t.type ≠ "transfer_in")
    (hie : ∀ t ∈ base, t.type = "income" ∨ t.type = "expense" →
        ∃ s, t.source_id = some s ∧ s ∈ wallets.map Wallet.id)
    (hps : ∀ p ∈ ps, p.A ∈ wallets.map Wallet.id ∧
      p.B ∈ wallets.map Wallet.id)
    (hperm : df.Perm (base ++ pairsLedger ps)) :
    total_balance wallets df =
      maskedSum df (typeIs "income") - maskedSum df (typeIs "expense") := by
  rw [total_balance_perm wallets hperm, maskedSum_perm hperm,
    maskedSum_perm hperm, total_balance_append, maskedSum_append,
    maskedSum_append, maskedSum_pairsLedger ps "income" (by decide) (by decide),
    maskedSum_pairsLedger ps "expense" (by decide) (by decide),
    total_pairsLedger wallets ps hnodup hps]
  have hie' : ∀ t ∈ base, t.type = "income" ∨ t.type = "expense" →
      countIn (wallets.map Wallet.id) t.source_id = 1 := by
    intro t ht hty
    obtain ⟨s, hs, hmem⟩ := hie t ht hty
    rw [hs]
    simp [countIn, List.count_eq_one_of_mem hnodup hmem]
  rw [total_base_eq wallets base hnt hie']
  ring

/-- C3 witness: the amended theorem at a concrete two-wallet registry,
a base of one income (10) and one expense (4) on wallet w1, and one
transfer pair of 5 from w1 to w2: the total is 6 = 10 - 4. -/
theorem c3_total_conservation_witness :
    total_balance [⟨"w1", "Cash"⟩, ⟨"w2", "Bank"⟩]
        ([⟨"t1", "income", some "w1", none, 10, "", 0⟩,
          ⟨"t2", "expense", some "w1", none, 4, "", 0⟩] ++
          pairsLedger [⟨"w1", "w2", 5, "", 0, "t3", "t4"⟩]) =
      maskedSum
          ([⟨"t1", "income", some "w1", none, 10, "", 0⟩,
            ⟨"t2", "expense", some "w1", none, 4, "", 0⟩] ++
            pairsLedger [⟨"w1", "w2", 5, "", 0, "t3", "t4"⟩])
          (typeIs "income")
        - maskedSum
          ([⟨"t1", "income", some "w1", none, 10, "", 0⟩,
            ⟨"t2", "expense", some "w1", none, 4, "", 0⟩] ++
            pairsLedger [⟨"w1", "w2", 5, "", 0, "t3", "t4"⟩])
          (typeIs "expense") :=
  c3_total_conservation [⟨"w1", "Cash"⟩, ⟨"w2", "Bank"⟩] _
    [⟨"t1", "income", some "w1", none, 10, "", 0⟩,
      ⟨"t2", "expense", some "w1", none, 4, "", 0⟩]
    [⟨"w1", "w2", 5, "", 0, "t3", "t4"⟩]
    (by decide) (by decide)
    (by
      intro t ht hty
      simp only [List.mem_cons, List.not_mem_nil, or_false] at ht
      rcases ht with rfl | rfl
      · exact ⟨"w1", rfl, by simp⟩
      · exact ⟨"w1", rfl, by simp⟩)
    (by
      intro p hp
      simp only [List.mem_cons, List.not_mem_nil, or_false] at hp
      subst hp
      exact ⟨by simp, by simp⟩)
    (List.Perm.refl _)

theorem mem_insertKey (d y : Nat) (l : List Nat) :
    y ∈ insertKey d l ↔ y = d ∨ y ∈ l := by
  induction l with
  | nil => simp [insertKey]
  | cons x xs ih =>
      by_cases h1 : d < x
      · simp [insertKey, h1]
      · by_cases h2 : d = x
        · subst h2
          simp [insertKey, h1, List.mem_cons]
        · simp only [insertKey, if_neg h1, if_neg h2, List.mem_cons, ih]
          tauto

theorem insertKey_sorted (d : Nat) (l : List Nat)
    (h : l.Pairwise (· < ·)) : (insertKey d l).Pairwise (· < ·) := by
  induction l with
  | nil => simp [insertKey]
  | cons x xs ih =>
      rw [List.pairwise_cons] at h
      obtain ⟨hx, hxs⟩ := h
      by_cases h1 : d < x
      · rw [insertKey, if_pos h1, List.pairwise_cons]
        refine ⟨?_, List.pairwise_cons.mpr ⟨hx, hxs⟩⟩
        intro y hy
        rcases List.mem_cons.mp hy with rfl | hy'
        · exact h1
        · exact lt_trans h1 (hx y hy')
      · by_cases h2 : d = x
        · rw [insertKey, if_neg h1, if_pos h2, List.pairwise_cons]
          exact ⟨hx, hxs⟩
        · rw [insertKey, if_neg h1, if_neg h2, List.pairwise_cons]
          refine ⟨?_, ih hxs⟩
          intro y hy
          rcases (mem_insertKey d y xs).mp hy with rfl | hy'
          · omega
          · exact hx y hy'

theorem sortedKeys_sorted (ds : List Nat) :
    (sortedKeys ds).Pairwise (· < ·) := by
  induction ds with
  | nil => simp [sortedKeys]
  | cons d ds ih => exact insertKey_sorted d (sortedKeys ds) ih

theorem mem_sortedKeys (y : Nat) (ds : List Nat) :
    y ∈ sortedKeys ds ↔ y ∈ ds := by
  induction ds with
  | nil => simp [sortedKeys]
  | cons d ds ih =>
      show y ∈ insertKey d (sortedKeys ds) ↔ _
      rw [mem_insertKey, ih, List.mem_cons]

/-- C8: grouping by day produces one pair per calendar date present in
the input, sorted by period ascending, each paired with the sum of the
amounts falling in that period; the spec's three-expense scenario
yields [(day1, 150), (day2, 30)] (day1 = day 0, day2 = day 1), and the
empty input yields the empty sequence. -/
theorem c8_daily_aggregation (txs : List Tx) :
    ((groupSumByDay txs).Pairwise (fun a b => a.1 < b.1)
      ∧ (∀ d : Nat,
          (∃ p ∈ groupSumByDay txs, p.1 = d) ↔ ∃ t ∈ txs, dateOnly t = d)
      ∧ (∀ p ∈ groupSumByDay txs,
          p.2 = maskedSum txs (fun t => dateOnly t == p.1)))
    ∧ groupSumByDay [] = []
    ∧ groupSumByDay
        [⟨"e1", "expense", some "w1", none, 100, "", 0⟩,
          ⟨"e2", "expense", some "w1", none, 50, "", 1⟩,
          ⟨"e3", "expense", some "w1", none, 30, "", 86400⟩] =
        [(0, 150), (1, 30)] := by
  refine ⟨⟨?_, ?_, ?_⟩, rfl, by decide⟩
  · rw [groupSumByDay, List.pairwise_map]
    exact sortedKeys_sorted (txs.map dateOnly)
  · intro d
    constructor
    · rintro ⟨p, hp, rfl⟩
      rw [groupSumByDay, List.mem_map] at hp
      obtain ⟨k, hk, rfl⟩ := hp
      rw [mem_sortedKeys, List.mem_map] at hk
      obtain ⟨t, ht, rfl⟩ := hk
      exact ⟨t, ht, rfl⟩
    · rintro ⟨t, ht, rfl⟩
      refine ⟨(dateOnly t, maskedSum txs (fun u => dateOnly u == dateOnly t)),
        ?_, rfl⟩
      rw [groupSumByDay, List.mem_map]
      exact ⟨dateOnly t,
        by rw [mem_sortedKeys]; exact List.mem_map.mpr ⟨t, ht, rfl⟩, rfl⟩
  · intro p hp
    rw [groupSumByDay, List.mem_map] at hp
    obtain ⟨k, hk, rfl⟩ := hp
    rfl

/-- C8 witness: the per-period-total conjunct at the scenario input —
the pair for day 0 carries 150, the sum of that day's amounts. -/
theorem c8_daily_aggregation_witness :
    ((0, 150) : Nat × Int).2 =
      maskedSum
        [⟨"e1", "expense", some "w1", none, 100, "", 0⟩,
          ⟨"e2", "expense", some "w1", none, 50, "", 1⟩,
          ⟨"e3", "expense", some "w1", none, 30, "", 86400⟩]
        (fun t => dateOnly t == ((0, 150) : Nat × Int).1) :=
  (c8_daily_aggregation
      [⟨"e1", "expense", some "w1", none, 100, "", 0⟩,
        ⟨"e2", "expense", some "w1", none, 50, "", 1⟩,
        ⟨"e3", "expense", some "w1", none, 30, "", 86400⟩]).1.2.2
    (0, 150) (by decide)

theorem mem_insertByCreatedDesc (u y : Tx) (l : List Tx) :
    y ∈ insertByCreatedDesc u l ↔ y = u ∨ y ∈ l := by
  induction l with
  | nil => simp [insertByCreatedDesc]
  | cons x xs ih =>
      by_cases hx : x.created_at ≤ u.created_at
      · simp [insertByCreatedDesc, hx, List.mem_cons]
      · simp only [insertByCreatedDesc, if_neg hx, List.mem_cons, ih]
        tauto

theorem mem_sortByCreatedDesc (y : Tx) (l : List Tx) :
    y ∈ sortByCreatedDesc l ↔ y ∈ l := by
  induction l with
  | nil => simp [sortByCreatedDesc]
  | cons x xs ih =>
      show y ∈ insertByCreatedDesc x (sortByCreatedDesc xs) ↔ _
      rw [mem_insertByCreatedDesc, ih, List.mem_cons]

theorem length_insertByCreatedDesc (u : Tx) (l : List Tx) :
    (insertByCreatedDesc u l).length = l.length + 1 := by
  induction l with
  | nil => rfl
  | cons x xs ih =>
      by_cases hx : x.created_at ≤ u.created_at
      · simp [insertByCreatedDesc, hx]
      · simp [insertByCreatedDesc, hx, ih]

theorem length_sortByCreatedDesc (l : List Tx) :
    (sortByCreatedDesc l).length = l.length := by
  induction l with
  | nil => rfl
  | cons x xs ih =>
      show (insertByCreatedDesc x (sortByCreatedDesc xs)).length = _
      rw [length_insertByCreatedDesc, ih, List.length_cons]

theorem insertByCreatedDesc_sorted (u : Tx) (l : List Tx)
    (h : l.Pairwise (fun a b => b.created_at ≤ a.created_at)) :
    (insertByCreatedDesc u l).Pairwise
      (fun a b => b.created_at ≤ a.created_at) := by
  induction l with
  | nil => simp [insertByCreatedDesc]
  | cons x xs ih =>
      rw [List.pairwise_cons] at h
      obtain ⟨hx, hxs⟩ := h
      by_cases hle : x.created_at ≤ u.created_at
      · rw [insertByCreatedDesc, if_pos hle, List.pairwise_cons]
        refine ⟨?_, List.pairwise_cons.mpr ⟨hx, hxs⟩⟩
        intro y hy
        rcases List.mem_cons.mp hy with rfl | hy'
        · exact hle
        · exact le_trans (hx y hy') hle
      · rw [insertByCreatedDesc, if_neg hle, List.pairwise_cons]
        refine ⟨?_, ih hxs⟩
        intro y hy
        rcases (mem_insertByCreatedDesc u y xs).mp hy with rfl | hy'
        · omega
        · exact hx y hy'

theorem sortByCreatedDesc_sorted (l : List Tx) :
    (sortByCreatedDesc l).Pairwise
      (fun a b => b.created_at ≤ a.created_at) := by
  induction l with
  | nil => simp [sortByCreatedDesc]
  | cons x xs ih => exact insertByCreatedDesc_sorted x (sortByCreatedDesc xs) ih

theorem insertByCreatedDesc_all_lt (t : Tx) (l : List Tx)
    (h : ∀ x ∈ l, t.created_at < x.created_at) :
    insertByCreatedDesc t l = l ++ [t] := by
  induction l with
  | nil => rfl
  | cons x xs ih =>
      have hx : ¬ x.created_at ≤ t.created_at := by
        have := h x (by simp)
        omega
      rw [insertByCreatedDesc, if_neg hx,
        ih (fun y hy => h y (by simp [hy])), List.cons_append]

theorem insertByCreatedDesc_append_last (u t : Tx) (s : List Tx)
    (h : t.created_at < u.created_at) :
    insertByCreatedDesc u (s ++ [t]) = insertByCreatedDesc u s ++ [t] := by
  induction s with
  | nil =>
      show insertByCreatedDesc u [t] = [u, t]
      rw [insertByCreatedDesc, if_pos (le_of_lt h)]
  | cons x xs ih =>
      by_cases hx : x.created_at ≤ u.created_at
      · rw [List.cons_append, insertByCreatedDesc, if_pos hx,
          insertByCreatedDesc, if_pos hx]
        rfl
      · rw [List.cons_append, insertByCreatedDesc, if_neg hx,
          insertByCreatedDesc, if_neg hx, ih, List.cons_append]

theorem foldr_insert_append_last (t : Tx) (l acc : List Tx)
    (h : ∀ x ∈ l, t.created_at < x.created_at) :
    l.foldr insertByCreatedDesc (acc ++ [t]) =
      l.foldr insertByCreatedDesc acc ++ [t] := by
  induction l with
  | nil => rfl
  | cons x xs ih =>
      rw [List.foldr_cons, List.foldr_cons,
        ih (fun y hy => h y (by simp [hy])),
        insertByCreatedDesc_append_last x t _ (h x (by simp))]

/-- Inserting a row strictly older than everything else sends it to the
very end of the descending sort, wherever it sat in the collection. -/
theorem sortByCreatedDesc_middle (pre post : List Tx) (t : Tx)
    (h : ∀ x ∈ pre ++ post, t.created_at < x.created_at) :
    sortByCreatedDesc (pre ++ t :: post) =
      sortByCreatedDesc (pre ++ post) ++ [t] := by
  have hpre : ∀ x ∈ pre, t.created_at < x.created_at :=
    fun x hx => h x (by simp [hx])
  have hpost : ∀ x ∈ post, t.created_at < x.created_at :=
    fun x hx => h x (by simp [hx])
  have hmem : ∀ x ∈ sortByCreatedDesc post, t.created_at < x.created_at :=
    fun x hx => hpost x ((mem_sortByCreatedDesc x post).mp hx)
  rw [sortByCreatedDesc, List.foldr_append, List.foldr_cons]
  rw [show List.foldr insertByCreatedDesc [] post = sortByCreatedDesc post
    from rfl]
  rw [insertByCreatedDesc_all_lt t (sortByCreatedDesc post) hmem]
  rw [foldr_insert_append_last t pre (sortByCreatedDesc post) hpre]
  conv_rhs => rw [sortByCreatedDesc, List.foldr_append]
  rfl

/-- C9: every balance, total and report reads only the loaded frame
`load_transactions_df`, which holds at most the 10000 most recent rows
sorted by created_at descending; a transaction that is strictly older
than at least 10000 other stored transactions (hence beyond the most
recent 10000) contributes nothing — deleting it from the collection
changes no loaded frame, wallet balance, dashboard total, or daily
expense aggregate. -/
theorem c9_limit_10000 (pre post : List Tx) (t : Tx) (w : String)
    (wallets : List Wallet)
    (hold : ∀ x ∈ pre ++ post, t.created_at < x.created_at)
    (hlen : 10000 ≤ (pre ++ post).length) :
    (load_transactions_df (pre ++ t :: post)).length ≤ 10000
    ∧ (load_transactions_df (pre ++ t :: post)).Pairwise
        (fun a b => b.created_at ≤ a.created_at)
    ∧ load_transactions_df (pre ++ t :: post) =
        load_transactions_df (pre ++ post)
    ∧ dashboard_balance (pre ++ t :: post) w =
        dashboard_balance (pre ++ post) w
    ∧ dashboard_total wallets (pre ++ t :: post) =
        dashboard_total wallets (pre ++ post)
    ∧ daily_expense_trend (pre ++ t :: post) =
        daily_expense_trend (pre ++ post) := by
  have hload : load_transactions_df (pre ++ t :: post) =
      load_transactions_df (pre ++ post) := by
    rw [load_transactions_df, sortByCreatedDesc_middle pre post t hold,
      List.take_append_of_le_length
        (by rw [length_sortByCreatedDesc]; exact hlen),
      load_transactions_df]
  refine ⟨?_, ?_, hload, ?_, ?_, ?_⟩
  · rw [load_transactions_df]
    exact List.length_take_le 10000 _
  · rw [load_transactions_df]
    exact (sortByCreatedDesc_sorted (pre ++ t :: post)).sublist
      (List.take_sublist 10000 _)
  · rw [dashboard_balance, dashboard_balance, hload]
  · rw [dashboard_total, dashboard_total, hload]
  · rw [daily_expense_trend, daily_expense_trend, hload]

/-- C9 witness: the frame-equality conjunct at a concrete store of
10000 recent rows plus one strictly older row. -/
theorem c9_limit_10000_witness :
    (∀ x ∈ List.replicate 10000
        (⟨"n", "income", some "w1", none, 1, "", 86400⟩ : Tx) ++ ([] : List Tx),
      (⟨"old", "income", some "w1", none, 1, "", 0⟩ : Tx).created_at <
        x.created_at)
    ∧ 10000 ≤ (List.replicate 10000
        (⟨"n", "income", some "w1", none, 1, "", 86400⟩ : Tx) ++
          ([] : List Tx)).length
    ∧ load_transactions_df
        (List.replicate 10000
          (⟨"n", "income", some "w1", none, 1, "", 86400⟩ : Tx) ++
          (⟨"old", "income", some "w1", none, 1, "", 0⟩ : Tx) :: []) =
      load_transactions_df
        (List.replicate 10000
          (⟨"n", "income", some "w1", none, 1, "", 86400⟩ : Tx) ++ []) :=
  ⟨by
    intro x hx
    rw [List.append_nil] at hx
    rw [List.eq_of_mem_replicate hx]
    decide,
  by rw [List.append_nil, List.length_replicate],
  (c9_limit_10000
      (List.replicate 10000 (⟨"n", "income", some "w1", none, 1, "", 86400⟩ : Tx))
      [] (⟨"old", "income", some "w1", none, 1, "", 0⟩ : Tx) "w1" []
      (by
        intro x hx
        rw [List.append_nil] at hx
        rw [List.eq_of_mem_replicate hx]
        decide)
      (by rw [List.append_nil, List.length_replicate])).2.2.1⟩

/-- C10: a stored transaction whose amount field is missing or
non-numeric is normalised to amount 0 by loading (the normalisation is
a total function — no amount value makes it fail), and the normalised
record contributes exactly 0 wherever it sits: with it inserted at any
position, every wallet balance, every total over any registry, and
every masked sum (hence every per-period aggregate) is the same as
without it. -/
theorem c10_malformed_amount (r : RawTx)
    (hmal : malformedAmount r.amount = true) :
    (normalizeTx r).amount = 0
    ∧ (∀ l₁ l₂ : List Tx, ∀ w : String,
        balance (l₁ ++ normalizeTx r :: l₂) w = balance (l₁ ++ l₂) w)
    ∧ (∀ (wallets : List Wallet) (l₁ l₂ : List Tx),
        total_balance wallets (l₁ ++ normalizeTx r :: l₂) =
          total_balance wallets (l₁ ++ l₂))
    ∧ (∀ (l₁ l₂ : List Tx) (p : Tx → Bool),
        maskedSum (l₁ ++ normalizeTx r :: l₂) p = maskedSum (l₁ ++ l₂) p) := by
  have h0 : (normalizeTx r).amount = 0 := by
    rcases hr : r.amount with _ | v
    · simp [normalizeTx, coerceAmount, hr]
    · rcases v with q | sv
      · rw [hr] at hmal
        simp [malformedAmount] at hmal
      · simp [normalizeTx, coerceAmount, hr]
  have hmask : ∀ (l₁ l₂ : List Tx) (p : Tx → Bool),
      maskedSum (l₁ ++ normalizeTx r :: l₂) p = maskedSum (l₁ ++ l₂) p := by
    intro l₁ l₂ p
    rw [maskedSum_append, maskedSum_append, maskedSum_cons, h0]
    simp
  have hbal : ∀ (l₁ l₂ : List Tx) (w : String),
      balance (l₁ ++ normalizeTx r :: l₂) w = balance (l₁ ++ l₂) w := by
    intro l₁ l₂ w
    simp only [balance, hmask]
  refine ⟨h0, hbal, ?_, hmask⟩
  intro wallets l₁ l₂
  simp only [total_balance]
  exact congrArg List.sum
    (List.map_congr_left (fun w _ => hbal l₁ l₂ w.id))

/-- C10 witness: the theorem at a concrete raw record with a missing
amount — it is normalised to 0 and a one-record ledger around it keeps
balance 0 for its wallet. -/
theorem c10_malformed_amount_witness :
    malformedAmount
        (⟨"t0", "expense", some "w1", none, none, "", 0⟩ : RawTx).amount = true
    ∧ (normalizeTx (⟨"t0", "expense", some "w1", none, none, "", 0⟩ : RawTx)).amount = 0
    ∧ balance
        ([] ++ normalizeTx (⟨"t0", "expense", some "w1", none, none, "", 0⟩ : RawTx) :: [])
        "w1" = balance ([] ++ []) "w1" :=
  ⟨by decide,
    (c10_malformed_amount ⟨"t0", "expense", some "w1", none, none, "", 0⟩
      (by decide)).1,
    (c10_malformed_amount ⟨"t0", "expense", some "w1", none, none, "", 0⟩
      (by decide)).2.1 [] [] "w1"⟩

end FinanceGuard
